import Mathlib

/-!
Verification of the Agent Inbox Protocol (AIP) reference server.

This file is a shallow embedding of `src/server.js`: the inbox validation
pipeline (`POST /inbox`), the task lifecycle endpoints
(`GET /tasks/:id/status`, `POST /tasks/:id/complete`, `POST /tasks/:id/reject`),
the list endpoints (`GET /tasks`, `GET /receipts`), and the helper functions
`checkRateLimit`, `checkNonce`, `verifySignature`, `signMessage`.

Modelling conventions:
* JavaScript `Map`s and the on-disk per-id JSON stores are modelled as
  insertion-ordered association lists (`alookup` / `ainsert` mirror
  `Map.get` / `Map.set` and `loadTask` / `saveTask`).
* Machine time `Date.now()` is an explicit `now : Int` argument (epoch ms),
  and `new Date().toISOString()` an explicit `nowIso : String` argument.
* JavaScript builtins with no arithmetic content (Ed25519 sign/verify from
  tweetnacl, base64 decode/encode, SHA-256, UTF-8 encoding, `Date` string
  parsing) are opaque parameters collected in `Env`; `Env.parseDate`
  returns `none` where `new Date(s).getTime()` is `NaN`.
* `JSON.stringify` is modelled concretely by `Json.stringify` over the
  `Json` type; numbers are integers (no claim depends on float formatting),
  and control characters outside the common escapes are left unescaped.
* Request body fields are `Option`-valued (`none` models `undefined`);
  JavaScript truthiness of strings (`""` is falsy) and of JSON values is
  modelled by `strTruthy` / `jsonTruthy`.
-/

set_option autoImplicit false

namespace AIP

/-- JSON values, as produced by `JSON.parse` of a request body.
Numbers are modelled as integers. -/
inductive Json where
  | null : Json
  | bool : Bool → Json
  | num : Int → Json
  | str : String → Json
  | arr : List Json → Json
  | obj : List (String × Json) → Json

/-- Escape of a single character inside a JSON string literal, as in
`JSON.stringify` (common escapes only). -/
def jsonEscapeChar (c : Char) : String :=
  if c = '"' then "\\\""
  else if c = '\\' then "\\\\"
  else if c = '\n' then "\\n"
  else if c = '\r' then "\\r"
  else if c = '\t' then "\\t"
  else c.toString

/-- Escape of a full string for a JSON string literal. -/
def jsonEscape (s : String) : String :=
  String.join (s.toList.map jsonEscapeChar)

mutual

/-- `JSON.stringify` on a `Json` value: keys in object insertion order,
no whitespace, exactly as Node serializes the object literals built in
`server.js`. -/
def Json.stringify : Json → String
  | Json.null => "null"
  | Json.bool true => "true"
  | Json.bool false => "false"
  | Json.num n => toString n
  | Json.str s => "\"" ++ jsonEscape s ++ "\""
  | Json.arr xs => "[" ++ stringifyArr xs ++ "]"
  | Json.obj fs => "\x7b" ++ stringifyFields fs ++ "\x7d"

/-- Comma-separated serialization of a JSON array's elements. -/
def stringifyArr : List Json → String
  | [] => ""
  | [j] => Json.stringify j
  | j :: rest => Json.stringify j ++ "," ++ stringifyArr rest

/-- Comma-separated serialization of a JSON object's key/value pairs. -/
def stringifyFields : List (String × Json) → String
  | [] => ""
  | [(k, v)] => "\"" ++ jsonEscape k ++ "\":" ++ Json.stringify v
  | (k, v) :: rest =>
      "\"" ++ jsonEscape k ++ "\":" ++ Json.stringify v ++ "," ++ stringifyFields rest

end

/-- JavaScript truthiness of a JSON value (`!x` in `server.js`):
`null`, `false`, `0` and `""` are falsy, everything else truthy. -/
def jsonTruthy : Json → Bool
  | Json.null => false
  | Json.bool b => b
  | Json.num n => n != 0
  | Json.str s => s != ""
  | Json.arr _ => true
  | Json.obj _ => true

/-- Truthiness of an optional string-valued body field: `undefined` and
`""` are falsy (the `!task_id || ...` test in `POST /inbox`). -/
def strTruthy : Option String → Bool
  | none => false
  | some s => s != ""

/-- `x || null` on an optional JSON body field: a falsy or absent value is
replaced by `null`. -/
def jsOr : Option Json → Json
  | none => Json.null
  | some j => if jsonTruthy j then j else Json.null

/-- Lookup in an insertion-ordered association list (`Map.get`, or a read
of `<key>.json` from a store directory). -/
def alookup {α : Type} (k : String) : List (String × α) → Option α
  | [] => none
  | (k', v) :: rest => if k' = k then some v else alookup k rest

/-- Insert/overwrite in an insertion-ordered association list (`Map.set`,
or a whole-document write of `<key>.json`). -/
def ainsert {α : Type} (k : String) (v : α) : List (String × α) → List (String × α)
  | [] => [(k, v)]
  | (k', v') :: rest =>
      if k' = k then (k, v) :: rest else (k', v') :: ainsert k v rest

/-- `Math.abs` on integers. -/
def mathAbs (i : Int) : Int := if i < 0 then -i else i

/-- Opaque JavaScript/crypto builtins used by `server.js`. Byte strings
are `List Nat`. `parseDate s = none` models `new Date(s).getTime()`
being `NaN`; `decodeBase64 s = none` models `decodeBase64` throwing. -/
structure Env where
  decodeBase64 : String → Option (List Nat)
  encodeBase64 : List Nat → String
  utf8Encode : String → List Nat
  naclVerifyDetached : List Nat → List Nat → List Nat → Bool
  naclSignDetached : List Nat → List Nat → List Nat
  sha256hex : List Nat → String
  parseDate : String → Option Int

/-- The agent's keypair loaded from `agent-keys.json` (base64 strings). -/
structure AgentKeys where
  publicKey : String
  secretKey : String

/-- `RATE_WINDOW_MS = 60_000` (one minute), in ms. -/
def RATE_WINDOW_MS : Int := 60000

/-- `RATE_MAX_REQUESTS = 10` per requester per window. -/
def RATE_MAX_REQUESTS : Nat := 10

/-- `NONCE_EXPIRY_MS = 300_000` (five minutes), in ms. -/
def NONCE_EXPIRY_MS : Int := 300000

/-- The capability `type` tags of `buildDefaultManifest()`. -/
def defaultCapabilities : List String :=
  ["research.security", "research.web", "code.review", "code.generate",
   "writing.technical", "writing.creative", "data.analysis",
   "orchestration.delegate"]

/-- `checkRateLimit(requesterId)` from `server.js`: ensure a bucket exists,
filter it to timestamps within the sliding window, refuse when the filtered
count has reached `RATE_MAX_REQUESTS`, otherwise append `now` and store the
filtered bucket back. Returns the boolean outcome together with the updated
bucket map (the JS function mutates the module-level `rateBuckets`). -/
def checkRateLimit (now : Int) (requesterId : String)
    (rateBuckets : List (String × List Int)) : Bool × List (String × List Int) :=
  let buckets1 :=
    if (alookup requesterId rateBuckets).isSome then rateBuckets
    else ainsert requesterId [] rateBuckets
  let bucket :=
    ((alookup requesterId rateBuckets).getD []).filter
      (fun ts => now - ts < RATE_WINDOW_MS)
  if RATE_MAX_REQUESTS ≤ bucket.length then (false, buckets1)
  else (true, ainsert requesterId (bucket ++ [now]) buckets1)

/-- `checkNonce(nonce, timestamp)` from `server.js`: reject when
`Math.abs(now - new Date(timestamp).getTime()) > NONCE_EXPIRY_MS`, then
when the nonce was already seen; otherwise record `nonce -> now`.
When the timestamp does not parse the JS comparison is `NaN > 300000`,
which is `false`, so the window check does not reject (`parseDate = none`
branch). Returns the outcome with the updated seen-nonce map. -/
def checkNonce (env : Env) (now : Int) (nonce timestamp : String)
    (seenNonces : List (String × Int)) : Bool × List (String × Int) :=
  let tsOut : Bool :=
    match env.parseDate timestamp with
    | some ts => NONCE_EXPIRY_MS < mathAbs (now - ts)
    | none => false
  if tsOut then (false, seenNonces)
  else if (alookup nonce seenNonces).isSome then (false, seenNonces)
  else (true, ainsert nonce now seenNonces)

/-- The periodic prune in the `setInterval` persistence loop: delete seen
nonces first seen more than `NONCE_EXPIRY_MS * 2` ago. -/
def pruneNonces (now : Int) (seenNonces : List (String × Int)) :
    List (String × Int) :=
  seenNonces.filter (fun p => ¬ (NONCE_EXPIRY_MS * 2 < now - p.2))

/-- `verifySignature(message, signature, publicKey)` from `server.js`:
UTF-8-encode `JSON.stringify(message)`, base64-decode the signature and the
key, and call `nacl.sign.detached.verify`; any decode failure is caught and
yields `false`. -/
def verifySignature (env : Env) (message : Json) (signature publicKey : String) :
    Bool :=
  match env.decodeBase64 signature, env.decodeBase64 publicKey with
  | some sigBytes, some pubBytes =>
      env.naclVerifyDetached (env.utf8Encode message.stringify) sigBytes pubBytes
  | _, _ => false

/-- `signMessage(message)` from `server.js`: sign the UTF-8 encoding of
`JSON.stringify(message)` with the agent's base64-decoded secret key and
base64-encode the detached signature. The function has no catch: a secret
key that fails to decode throws, modelled as `none`. -/
def signMessage (env : Env) (keys : AgentKeys) (message : Json) : Option String :=
  (env.decodeBase64 keys.secretKey).map
    (fun sk => env.encodeBase64 (env.naclSignDetached (env.utf8Encode message.stringify) sk))

/-- A receipt as built in `POST /tasks/:id/complete`: the `receiptData`
fields, in object-literal order, plus the agent's detached signature. -/
structure Receipt where
  task_id : String
  requester_id : String
  agent_id : String
  task_type : String
  completion_timestamp : String
  result_hash : String
  payment_proof : Json
  agent_signature : String

/-- The `receiptData` object that is hashed into a receipt's signature:
every `Receipt` field except `agent_signature`, in the order of the object
literal in `POST /tasks/:id/complete`. -/
def receiptDataJson (r : Receipt) : Json :=
  Json.obj
    [("task_id", Json.str r.task_id),
     ("requester_id", Json.str r.requester_id),
     ("agent_id", Json.str r.agent_id),
     ("task_type", Json.str r.task_type),
     ("completion_timestamp", Json.str r.completion_timestamp),
     ("result_hash", Json.str r.result_hash),
     ("payment_proof", r.payment_proof)]

/-- A task record as created by `POST /inbox` and mutated by the
complete/reject endpoints. `result = none` and `receipt = none` model the
JSON `null`s of a fresh record; `rejection_reason` is the property that
`POST /tasks/:id/reject` adds dynamically. -/
structure Task where
  task_id : String
  requester_id : String
  task_type : String
  description : String
  params : Json
  payment_offer : Json
  callback_url : Json
  deadline : Json
  nonce : String
  timestamp : String
  status : String
  created : String
  updated : String
  result : Option Json
  receipt : Option Receipt
  rejection_reason : Option String

/-- The whole mutable state of the server process: the task store
(`data/tasks/<id>.json`), the receipt store (`data/receipts/<id>.json`),
the in-memory `seenNonces` map and the in-memory `rateBuckets` map. The
two stores are keyed by task id in write order. -/
structure ServerState where
  tasks : List (String × Task)
  receipts : List (String × Receipt)
  seenNonces : List (String × Int)
  rateBuckets : List (String × List Int)

/-- The body of a `POST /inbox` request after `express.json` parsing.
`none` models an absent (`undefined`) field. The seven required fields
are strings on the honest path; non-string JSON values for them are out
of the model's scope (no claim depends on them). -/
structure InboxRequest where
  task_id : Option String
  requester_id : Option String
  task_type : Option String
  description : Option String
  params : Option Json
  payment_offer : Option Json
  callback_url : Option Json
  deadline : Option Json
  nonce : Option String
  timestamp : Option String
  signature : Option String

/-- The `!task_id || !requester_id || ...` required-field test of
`POST /inbox`, i.e. every required field present and truthy. -/
def requiredPresent (req : InboxRequest) : Bool :=
  strTruthy req.task_id && strTruthy req.requester_id &&
  strTruthy req.task_type && strTruthy req.description &&
  strTruthy req.nonce && strTruthy req.timestamp && strTruthy req.signature

/-- A key/value pair of `JSON.stringify`'s output, or nothing when the
value is `undefined` (absent keys are omitted from the serialization). -/
def optField (name : String) : Option Json → List (String × Json)
  | none => []
  | some j => [(name, j)]

/-- The `messageToVerify` object of `POST /inbox`: the exact canonical
field set, in object-literal order, with `undefined` optional fields
omitted exactly as `JSON.stringify` omits them. -/
def messageToVerify (req : InboxRequest) : Json :=
  Json.obj
    ([("task_id", Json.str (req.task_id.getD "")),
      ("requester_id", Json.str (req.requester_id.getD "")),
      ("task_type", Json.str (req.task_type.getD "")),
      ("description", Json.str (req.description.getD ""))]
     ++ optField "params" req.params
     ++ optField "payment_offer" req.payment_offer
     ++ optField "callback_url" req.callback_url
     ++ optField "deadline" req.deadline
     ++ [("nonce", Json.str (req.nonce.getD "")),
         ("timestamp", Json.str (req.timestamp.getD ""))])

/-- The task record constructed on acceptance by `POST /inbox`. -/
def mkTask (req : InboxRequest) (nowIso : String) : Task :=
  { task_id := req.task_id.getD ""
    requester_id := req.requester_id.getD ""
    task_type := req.task_type.getD ""
    description := req.description.getD ""
    params := jsOr req.params
    payment_offer := jsOr req.payment_offer
    callback_url := jsOr req.callback_url
    deadline := jsOr req.deadline
    nonce := req.nonce.getD ""
    timestamp := req.timestamp.getD ""
    status := "pending"
    created := nowIso
    updated := nowIso
    result := none
    receipt := none
    rejection_reason := none }

/-- Outcome of `POST /inbox`, one constructor per response the route can
send. -/
inductive SubmitResult where
  | missingFields : SubmitResult
  | rateLimited : SubmitResult
  | invalidNonce : SubmitResult
  | invalidSignature : SubmitResult
  | capabilityNotFound : SubmitResult
  | accepted : String → SubmitResult
deriving DecidableEq

/-- The HTTP status code each `POST /inbox` outcome is sent with. -/
def SubmitResult.httpStatus : SubmitResult → Nat
  | SubmitResult.missingFields => 400
  | SubmitResult.rateLimited => 429
  | SubmitResult.invalidNonce => 400
  | SubmitResult.invalidSignature => 401
  | SubmitResult.capabilityNotFound => 404
  | SubmitResult.accepted _ => 201

/-- The machine-readable `error` kind of each failing `POST /inbox`
outcome. -/
def SubmitResult.errorKind : SubmitResult → Option String
  | SubmitResult.missingFields => some "missing_fields"
  | SubmitResult.rateLimited => some "rate_limited"
  | SubmitResult.invalidNonce => some "invalid_nonce"
  | SubmitResult.invalidSignature => some "invalid_signature"
  | SubmitResult.capabilityNotFound => some "capability_not_found"
  | SubmitResult.accepted _ => none

/-- The `status` field of the 201 response body (`'accepted'`). -/
def SubmitResult.bodyStatus : SubmitResult → Option String
  | SubmitResult.accepted _ => some "accepted"
  | _ => none

/-- `POST /inbox` from `server.js`: required-field check, rate limit,
nonce/timestamp replay check, signature check over `messageToVerify`,
capability check, then creation and persistence of a `pending` task.
`capabilities` is `manifest.capabilities.map(c => c.type)`; the route
tests `manifest.capabilities.some(c => c.type === task_type)`. State
updates happen exactly where the JS helpers mutate their maps: the rate
bucket is updated by a passing `checkRateLimit` even when a later check
fails, and the nonce is recorded by a passing `checkNonce` even when the
signature or capability check then fails. -/
def submit (env : Env) (capabilities : List String) (now : Int) (nowIso : String)
    (req : InboxRequest) (st : ServerState) : SubmitResult × ServerState :=
  if !(requiredPresent req) then (SubmitResult.missingFields, st)
  else
    let rid := req.requester_id.getD ""
    let rl := checkRateLimit now rid st.rateBuckets
    let st1 : ServerState := { st with rateBuckets := rl.2 }
    if !rl.1 then (SubmitResult.rateLimited, st1)
    else
      let nc := checkNonce env now (req.nonce.getD "") (req.timestamp.getD "") st1.seenNonces
      let st2 : ServerState := { st1 with seenNonces := nc.2 }
      if !nc.1 then (SubmitResult.invalidNonce, st2)
      else if !(verifySignature env (messageToVerify req) (req.signature.getD "") rid) then
        (SubmitResult.invalidSignature, st2)
      else if !(capabilities.contains (req.task_type.getD "")) then
        (SubmitResult.capabilityNotFound, st2)
      else
        let task := mkTask req nowIso
        (SubmitResult.accepted (req.task_id.getD ""),
         { st2 with tasks := ainsert (req.task_id.getD "") task st2.tasks })

/-- The body of a `GET /tasks/:id/status` 200 response. -/
structure StatusResponse where
  task_id : String
  status : String
  task_type : String
  created : String
  updated : String
  result : Option Json
  receipt : Option Receipt

/-- `GET /tasks/:id/status`: 404 (`none`) when the task does not exist,
otherwise the stored record with `result` exposed only when the status is
`completed` and `receipt` as stored (`task.receipt || null`). -/
def getStatus (st : ServerState) (id : String) : Option StatusResponse :=
  match alookup id st.tasks with
  | none => none
  | some t =>
      some
        { task_id := t.task_id
          status := t.status
          task_type := t.task_type
          created := t.created
          updated := t.updated
          result := if t.status = "completed" then t.result else none
          receipt := t.receipt }

/-- Outcome of `POST /tasks/:id/complete`. `signError` models the uncaught
throw (an HTTP 500 with no state change) when the stored secret key fails
to base64-decode inside `signMessage`. -/
inductive CompleteResult where
  | notFound : CompleteResult
  | missingResult : CompleteResult
  | signError : CompleteResult
  | ok : Receipt → CompleteResult

/-- `POST /tasks/:id/complete` from `server.js`: load the task, require a
truthy `result`, hash `JSON.stringify(result)` with SHA-256 (hex), build
and sign the receipt, set the task to `completed` with the result and
receipt attached, and persist both the task and the standalone receipt.
There is no status guard: a `rejected` (or `completed`) task is
overwritten just like a `pending` one. -/
def complete (env : Env) (keys : AgentKeys) (nowIso : String) (id : String)
    (result payment_proof : Option Json) (st : ServerState) :
    CompleteResult × ServerState :=
  match alookup id st.tasks with
  | none => (CompleteResult.notFound, st)
  | some task =>
      match result with
      | none => (CompleteResult.missingResult, st)
      | some r =>
          if !(jsonTruthy r) then (CompleteResult.missingResult, st)
          else
            let resultHash := env.sha256hex (env.utf8Encode r.stringify)
            let base : Receipt :=
              { task_id := task.task_id
                requester_id := task.requester_id
                agent_id := keys.publicKey
                task_type := task.task_type
                completion_timestamp := nowIso
                result_hash := resultHash
                payment_proof := jsOr payment_proof
                agent_signature := "" }
            match signMessage env keys (receiptDataJson base) with
            | none => (CompleteResult.signError, st)
            | some sig =>
                let receipt : Receipt := { base with agent_signature := sig }
                let task' : Task :=
                  { task with
                      status := "completed"
                      result := some r
                      receipt := some receipt
                      updated := nowIso }
                (CompleteResult.ok receipt,
                 { st with
                     tasks := ainsert task.task_id task' st.tasks
                     receipts := ainsert receipt.task_id receipt st.receipts })

/-- Outcome of `POST /tasks/:id/reject`. -/
inductive RejectResult where
  | notFound : RejectResult
  | ok : String → RejectResult
deriving DecidableEq

/-- `POST /tasks/:id/reject` from `server.js`: load the task, set its
status to `rejected` unconditionally (no terminal-state guard), record the
reason (`req.body.reason || 'No reason given'`), and persist. The stored
`result` and `receipt` fields are left as they were. -/
def reject (nowIso : String) (id : String) (reason : Option String)
    (st : ServerState) : RejectResult × ServerState :=
  match alookup id st.tasks with
  | none => (RejectResult.notFound, st)
  | some task =>
      let rsn :=
        match reason with
        | some s => if s = "" then "No reason given" else s
        | none => "No reason given"
      let task' : Task :=
        { task with
            status := "rejected"
            updated := nowIso
            rejection_reason := some rsn }
      (RejectResult.ok rsn, { st with tasks := ainsert task.task_id task' st.tasks })

/-- JavaScript `parseInt(s)` (radix 10): skip leading whitespace, read an
optional sign and the longest digit prefix; `none` models `NaN` (no
digits). The `0x` hex prefix is out of scope (no claim uses it). -/
def jsParseInt (s : String) : Option Int :=
  let cs := s.toList.dropWhile (fun c => c = ' ' || c = '\t' || c = '\n' || c = '\r')
  let signed : Int × List Char :=
    match cs with
    | '-' :: rest => (-1, rest)
    | '+' :: rest => (1, rest)
    | _ => (1, cs)
  let digits := signed.2.takeWhile Char.isDigit
  if digits.isEmpty then none
  else
    some (signed.1 * (Int.ofNat (digits.foldl (fun acc c => acc * 10 + (c.toNat - 48)) 0)))

/-- `arr.slice(0, e)` where `e` is the (possibly `NaN`) result of
`parseInt(limit)`: `NaN` becomes end index `0`, a negative `e` counts from
the end (clamped at `0`), otherwise the first `e` elements. -/
def jsSliceTo {α : Type} (e : Option Int) (l : List α) : List α :=
  match e with
  | none => []
  | some k => if k < 0 then l.take (l.length - k.natAbs) else l.take k.toNat

/-- `if (limit) xs = xs.slice(0, parseInt(limit))` as both list routes
apply it: skipped when the query value is absent or the empty string
(falsy), otherwise a slice to the parsed bound. -/
def applyLimit {α : Type} (limit : Option String) (l : List α) : List α :=
  match limit with
  | none => l
  | some s => if s = "" then l else jsSliceTo (jsParseInt s) l

/-- Stable insertion into a list sorted by descending integer key:
the new element goes after every element with a key at least as large. -/
def insertByKeyDesc {α : Type} (key : α → Int) (x : α) : List α → List α
  | [] => [x]
  | y :: ys => if key y < key x then x :: y :: ys else y :: insertByKeyDesc key x ys

/-- Stable sort by descending integer key, modelling the
`(a, b) => new Date(b.f) - new Date(a.f)` comparator both list routes pass
to `Array.prototype.sort` (stable in Node). Records whose date field does
not parse are keyed as `0`; no claim depends on their relative order. -/
def sortByKeyDesc {α : Type} (key : α → Int) : List α → List α
  | [] => []
  | x :: xs => insertByKeyDesc key x (sortByKeyDesc key xs)

/-- The integer sort key of a date string: its parsed epoch value, `0`
when unparsable. -/
def dateKey (env : Env) (s : String) : Int := (env.parseDate s).getD 0

/-- The per-task summary object of the `GET /tasks` list view: the full
record minus `result`/`receipt`, description truncated to 200 characters. -/
structure TaskSummary where
  task_id : String
  requester_id : String
  task_type : String
  description : String
  status : String
  created : String
  updated : String
deriving DecidableEq

/-- The summary `GET /tasks` builds for one stored task. -/
def taskSummary (t : Task) : TaskSummary :=
  { task_id := t.task_id
    requester_id := t.requester_id
    task_type := t.task_type
    description := t.description.take 200
    status := t.status
    created := t.created
    updated := t.updated }

/-- The body of a `GET /tasks` response: `total` is the length of the
returned (already filtered/sorted/limited) list. -/
structure TasksResponse where
  total : Nat
  tasks : List TaskSummary

/-- `GET /tasks` from `server.js`: map every stored record to its summary,
filter by `status` when that query value is truthy, sort newest-first by
`created`, apply `limit`, and report the final length as `total`.
Directory-listing order is modelled as store (write) order. -/
def getTasks (env : Env) (status limit : Option String) (st : ServerState) :
    TasksResponse :=
  let tasks0 := (st.tasks.map Prod.snd).map taskSummary
  let tasks1 :=
    match status with
    | none => tasks0
    | some s => if s = "" then tasks0 else tasks0.filter (fun t => t.status = s)
  let tasks2 := sortByKeyDesc (fun t => dateKey env t.created) tasks1
  let tasks3 := applyLimit limit tasks2
  { total := tasks3.length, tasks := tasks3 }

/-- The body of a `GET /receipts` response. -/
structure ReceiptsResponse where
  agent_id : String
  total : Nat
  receipts : List Receipt

/-- `GET /receipts` from `server.js`: read every stored receipt, filter by
`agent_id` and `task_type` when those query values are truthy, sort
newest-first by `completion_timestamp`, apply `limit`, and report the
final length as `total`. -/
def getReceipts (env : Env) (keys : AgentKeys)
    (agent_id task_type limit : Option String) (st : ServerState) :
    ReceiptsResponse :=
  let receipts0 := st.receipts.map Prod.snd
  let receipts1 :=
    match agent_id with
    | none => receipts0
    | some a => if a = "" then receipts0 else receipts0.filter (fun r => r.agent_id = a)
  let receipts2 :=
    match task_type with
    | none => receipts1
    | some ty => if ty = "" then receipts1 else receipts1.filter (fun r => r.task_type = ty)
  let receipts3 := sortByKeyDesc (fun r => dateKey env r.completion_timestamp) receipts2
  let receipts4 := applyLimit limit receipts3
  { agent_id := keys.publicKey, total := receipts4.length, receipts := receipts4 }

/-! ### Concrete fixtures for witnesses and counterexamples -/

/-- An environment whose abstract crypto accepts every signature; the only
date strings it parses are `"2026-02-16T00:00:00.000Z"` (epoch value
`1000`) and `"2026-02-16T01:00:00.000Z"` (epoch value `3601000`). -/
def envA : Env :=
  { decodeBase64 := fun _ => some [1]
    encodeBase64 := fun _ => "c2ln"
    utf8Encode := fun _ => [2]
    naclVerifyDetached := fun _ _ _ => true
    naclSignDetached := fun _ _ => [3]
    sha256hex := fun _ => "hash"
    parseDate := fun s =>
      if s = "2026-02-16T00:00:00.000Z" then some 1000
      else if s = "2026-02-16T01:00:00.000Z" then some 3601000
      else none }

/-- `envA` with crypto that refuses every signature. -/
def envBad : Env :=
  { envA with naclVerifyDetached := fun _ _ _ => false }

/-- A concrete agent keypair (base64 strings, opaque to the model). -/
def keysA : AgentKeys := { publicKey := "agent-pub", secretKey := "agent-sec" }

/-- An environment for exercising the receipt-signing path: the agent's
two stored keys decode to `[1]` and `[2]`, every produced signature
decodes back to the constant signature bytes `[3]`, and verification
accepts everything. -/
def envSign : Env :=
  { decodeBase64 := fun s =>
      if s = "agent-sec" then some [1]
      else if s = "agent-pub" then some [2]
      else some [3]
    encodeBase64 := fun _ => "sig-b64"
    utf8Encode := fun _ => [2]
    naclVerifyDetached := fun _ _ _ => true
    naclSignDetached := fun _ _ => [3]
    sha256hex := fun _ => "hash"
    parseDate := fun _ => none }

/-- The empty server state at process start. -/
def st0 : ServerState :=
  { tasks := [], receipts := [], seenNonces := [], rateBuckets := [] }

/-- A fully populated, well-formed inbox request. -/
def reqA : InboxRequest :=
  { task_id := some "task-1"
    requester_id := some "req-1"
    task_type := some "research.web"
    description := some "x"
    params := none
    payment_offer := none
    callback_url := none
    deadline := none
    nonce := some "n1"
    timestamp := some "2026-02-16T00:00:00.000Z"
    signature := some "sig-1" }

/-- `reqA` with the required `description` field absent. -/
def reqNoDesc : InboxRequest := { reqA with description := none }

/-- `reqA` with a timestamp one hour away from `now = 1000` under
`envA.parseDate`. -/
def reqStale : InboxRequest :=
  { reqA with timestamp := some "2026-02-16T01:00:00.000Z" }

/-- `reqA` with a timestamp string `envA.parseDate` cannot parse
(`new Date(...)` would give `NaN`). -/
def reqNan : InboxRequest := { reqA with timestamp := some "not-a-date" }

/-- A state in which nonce `"n1"` was first seen at epoch `900`. -/
def stSeen : ServerState := { st0 with seenNonces := [("n1", 900)] }

/-- A receipt attached to the completed fixture task. -/
def receiptA : Receipt :=
  { task_id := "task-1"
    requester_id := "req-1"
    agent_id := "agent-pub"
    task_type := "research.web"
    completion_timestamp := "2026-02-16T00:01:00.000Z"
    result_hash := "hash"
    payment_proof := Json.null
    agent_signature := "c2ln" }

/-- A task record already in the terminal status `completed`, carrying a
result and a receipt. -/
def completedTask : Task :=
  { mkTask reqA "2026-02-16T00:00:01.000Z" with
      status := "completed"
      result := some (Json.str "r")
      receipt := some receiptA
      updated := "2026-02-16T00:01:00.000Z" }

/-- A state whose store holds the completed fixture task. -/
def stCompleted : ServerState := { st0 with tasks := [("task-1", completedTask)] }

/-- A state holding one pending task and one receipt, for the list
endpoints. -/
def stOne : ServerState :=
  { st0 with
      tasks := [("task-1", mkTask reqA "2026-02-16T00:00:01.000Z")]
      receipts := [("task-1", receiptA)] }

/-- A rate bucket holding `RATE_MAX_REQUESTS` in-window timestamps for
requester `"req-1"` at `now = 1000`. -/
def stRateFull : ServerState :=
  { st0 with
      rateBuckets :=
        [("req-1", [1, 2, 3, 4, 5, 6, 7, 8, 9, 10])] }

/-! ### Helper lemmas about the embedded operations -/

theorem alookup_ainsert_self {α : Type} (k : String) (v : α) (l : List (String × α)) :
    alookup k (ainsert k v l) = some v := by
  induction l with
  | nil => simp [ainsert, alookup]
  | cons hd tl ih =>
      obtain ⟨k', v'⟩ := hd
      by_cases h : k' = k
      · simp [ainsert, alookup, h]
      · simp [ainsert, alookup, h, ih]

theorem checkRateLimit_fst_iff (now : Int) (rid : String)
    (b : List (String × List Int)) :
    (checkRateLimit now rid b).1 = true ↔
      (((alookup rid b).getD []).filter
          (fun ts => now - ts < RATE_WINDOW_MS)).length < RATE_MAX_REQUESTS := by
  by_cases hc : RATE_MAX_REQUESTS ≤
      (((alookup rid b).getD []).filter (fun ts => now - ts < RATE_WINDOW_MS)).length
  · simp only [checkRateLimit, hc, if_true, if_pos]
    constructor
    · intro h; exact absurd h (by simp)
    · intro h; omega
  · simp only [checkRateLimit, hc, if_neg, if_false]
    constructor
    · intro _; omega
    · intro _; trivial

theorem checkRateLimit_snd_of_fail (now : Int) (rid : String)
    (b : List (String × List Int))
    (h : (checkRateLimit now rid b).1 = false) :
    (checkRateLimit now rid b).2 = b := by
  by_cases hc : RATE_MAX_REQUESTS ≤
      (((alookup rid b).getD []).filter (fun ts => now - ts < RATE_WINDOW_MS)).length
  · have hsome : (alookup rid b).isSome = true := by
      cases hl : alookup rid b with
      | none => simp [hl, RATE_MAX_REQUESTS] at hc
      | some v => simp
    simp [checkRateLimit, hc, hsome]
  · simp [checkRateLimit, hc] at h

theorem checkRateLimit_snd_of_pass (now : Int) (rid : String)
    (b : List (String × List Int))
    (h : (checkRateLimit now rid b).1 = true) :
    alookup rid (checkRateLimit now rid b).2 =
      some ((((alookup rid b).getD []).filter
        (fun ts => now - ts < RATE_WINDOW_MS)) ++ [now]) := by
  by_cases hc : RATE_MAX_REQUESTS ≤
      (((alookup rid b).getD []).filter (fun ts => now - ts < RATE_WINDOW_MS)).length
  · simp [checkRateLimit, hc] at h
  · simp [checkRateLimit, hc, alookup_ainsert_self]

theorem checkNonce_of_seen (env : Env) (now : Int) (nonce ts : String)
    (seen : List (String × Int)) (h : (alookup nonce seen).isSome = true) :
    checkNonce env now nonce ts seen = (false, seen) := by
  cases hp : env.parseDate ts with
  | none => simp [checkNonce, hp, h]
  | some t =>
      by_cases hw : NONCE_EXPIRY_MS < mathAbs (now - t)
      · simp [checkNonce, hp, hw]
      · simp [checkNonce, hp, hw, h]

theorem checkNonce_out_of_window (env : Env) (now : Int) (nonce ts : String)
    (seen : List (String × Int)) (t : Int)
    (hp : env.parseDate ts = some t)
    (hw : NONCE_EXPIRY_MS < mathAbs (now - t)) :
    checkNonce env now nonce ts seen = (false, seen) := by
  simp [checkNonce, hp, hw]

theorem checkNonce_in_window (env : Env) (now : Int) (nonce ts : String)
    (seen : List (String × Int)) (t : Int)
    (hp : env.parseDate ts = some t)
    (hw : mathAbs (now - t) ≤ NONCE_EXPIRY_MS)
    (hfresh : alookup nonce seen = none) :
    checkNonce env now nonce ts seen = (true, ainsert nonce now seen) := by
  simp [checkNonce, hp, Int.not_lt.mpr hw, hfresh]

theorem checkNonce_nan (env : Env) (now : Int) (nonce ts : String)
    (seen : List (String × Int))
    (hp : env.parseDate ts = none)
    (hfresh : alookup nonce seen = none) :
    checkNonce env now nonce ts seen = (true, ainsert nonce now seen) := by
  simp [checkNonce, hp, hfresh]

theorem checkNonce_cases (env : Env) (now : Int) (nonce ts : String)
    (seen : List (String × Int)) :
    checkNonce env now nonce ts seen = (false, seen) ∨
    checkNonce env now nonce ts seen = (true, ainsert nonce now seen) := by
  cases hp : env.parseDate ts with
  | none =>
      by_cases hf : (alookup nonce seen).isSome <;> simp [checkNonce, hp, hf]
  | some t =>
      by_cases hw : NONCE_EXPIRY_MS < mathAbs (now - t)
      · simp [checkNonce, hp, hw]
      · by_cases hf : (alookup nonce seen).isSome <;> simp [checkNonce, hp, hw, hf]

theorem alookup_filter_of_keep {α : Type} (k : String) (v : α)
    (p : String × α → Bool) (l : List (String × α))
    (h : alookup k l = some v) (hp : p (k, v) = true) :
    alookup k (l.filter p) = some v := by
  induction l with
  | nil => simp [alookup] at h
  | cons hd tl ih =>
      obtain ⟨k', v'⟩ := hd
      by_cases hk : k' = k
      · subst hk
        simp [alookup] at h
        subst h
        simp [List.filter, hp, alookup]
      · simp only [alookup, if_neg hk] at h
        cases hpv : p (k', v') <;>
          simp [List.filter, hpv, alookup, hk, ih h]

theorem mem_snd_ainsert {α : Type} (k : String) (v x : α)
    (l : List (String × α)) (h : x ∈ (ainsert k v l).map Prod.snd) :
    x = v ∨ x ∈ l.map Prod.snd := by
  induction l with
  | nil =>
      simp only [ainsert, List.map_cons, List.map_nil, List.mem_cons,
        List.not_mem_nil, or_false] at h
      exact Or.inl h
  | cons hd tl ih =>
      obtain ⟨k', v'⟩ := hd
      by_cases hk : k' = k
      · rw [show ainsert k v ((k', v') :: tl) = (k, v) :: tl from by
          simp [ainsert, hk]] at h
        simp only [List.map_cons, List.mem_cons] at h ⊢
        tauto
      · rw [show ainsert k v ((k', v') :: tl) = (k', v') :: ainsert k v tl from by
          simp [ainsert, hk]] at h
        simp only [List.map_cons, List.mem_cons] at h ⊢
        rcases h with h | h
        · exact Or.inr (Or.inl h)
        · rcases ih h with h' | h'
          · exact Or.inl h'
          · exact Or.inr (Or.inr h')

/-! ### Claim theorems -/

/-- C1: a `POST /inbox` request that carries all required fields, is under
the requester's rate limit, has a fresh nonce, a timestamp within ±5
minutes of server time, a signature that verifies against `requester_id`
over the canonical field set, and a supported task type, is answered with
HTTP 201 and body status `accepted`, and a subsequent
`GET /tasks/:id/status` returns the stored task with status `pending`. -/
theorem c1_submit_accepted_then_pending
    (env : Env) (caps : List String) (now : Int) (nowIso : String)
    (req : InboxRequest) (st : ServerState) (t : Int)
    (hreq : requiredPresent req = true)
    (hrate : (((alookup (req.requester_id.getD "") st.rateBuckets).getD []).filter
        (fun ts => now - ts < RATE_WINDOW_MS)).length < RATE_MAX_REQUESTS)
    (hts : env.parseDate (req.timestamp.getD "") = some t)
    (hwin : mathAbs (now - t) ≤ NONCE_EXPIRY_MS)
    (hfresh : alookup (req.nonce.getD "") st.seenNonces = none)
    (hsig : verifySignature env (messageToVerify req) (req.signature.getD "")
        (req.requester_id.getD "") = true)
    (hcap : req.task_type.getD "" ∈ caps) :
    (submit env caps now nowIso req st).1 =
        SubmitResult.accepted (req.task_id.getD "") ∧
    (submit env caps now nowIso req st).1.httpStatus = 201 ∧
    (submit env caps now nowIso req st).1.bodyStatus = some "accepted" ∧
    getStatus (submit env caps now nowIso req st).2 (req.task_id.getD "") =
      some
        { task_id := req.task_id.getD ""
          status := "pending"
          task_type := req.task_type.getD ""
          created := nowIso
          updated := nowIso
          result := none
          receipt := none } := by
  have hrl : (checkRateLimit now (req.requester_id.getD "") st.rateBuckets).1 = true :=
    (checkRateLimit_fst_iff now (req.requester_id.getD "") st.rateBuckets).mpr hrate
  have hnc :
      checkNonce env now (req.nonce.getD "") (req.timestamp.getD "") st.seenNonces =
        (true, ainsert (req.nonce.getD "") now st.seenNonces) :=
    checkNonce_in_window env now (req.nonce.getD "") (req.timestamp.getD "")
      st.seenNonces t hts hwin hfresh
  refine ⟨?_, ?_, ?_, ?_⟩ <;>
    simp [submit, hreq, hrl, hnc, hsig, hcap, getStatus, alookup_ainsert_self,
      mkTask, SubmitResult.httpStatus, SubmitResult.bodyStatus]

/-- Witness for C1 at a concrete request, environment and empty state. -/
theorem c1_witness :
    (submit envA defaultCapabilities 1000 "iso" reqA st0).1 =
        SubmitResult.accepted (reqA.task_id.getD "") ∧
    (submit envA defaultCapabilities 1000 "iso" reqA st0).1.httpStatus = 201 ∧
    (submit envA defaultCapabilities 1000 "iso" reqA st0).1.bodyStatus = some "accepted" ∧
    getStatus (submit envA defaultCapabilities 1000 "iso" reqA st0).2 (reqA.task_id.getD "") =
      some
        { task_id := reqA.task_id.getD ""
          status := "pending"
          task_type := reqA.task_type.getD ""
          created := "iso"
          updated := "iso"
          result := none
          receipt := none } :=
  c1_submit_accepted_then_pending envA defaultCapabilities 1000 "iso" reqA st0 1000
    rfl (by decide) rfl (by decide) rfl rfl (by decide)

/-- C2: the code violates terminal-state finality. In the fixture state
the stored task `task-1` has status `completed`; `POST /tasks/:id/reject`
nevertheless succeeds and changes the stored status to `rejected`
(transitioning out of a terminal state), while the stored receipt object
itself is left in place. -/
theorem c2_reject_escapes_completed :
    (alookup "task-1" stCompleted.tasks).map Task.status = some "completed" ∧
    (reject "2026-02-16T00:02:00.000Z" "task-1" none stCompleted).1 =
        RejectResult.ok "No reason given" ∧
    (alookup "task-1"
        (reject "2026-02-16T00:02:00.000Z" "task-1" none stCompleted).2.tasks).map
        Task.status = some "rejected" ∧
    (alookup "task-1"
        (reject "2026-02-16T00:02:00.000Z" "task-1" none stCompleted).2.tasks).map
        Task.receipt = some (some receiptA) :=
  ⟨rfl, rfl, rfl, rfl⟩

/-- C3 counterexample: a request that fails signature verification (every
other check passing) leaves the seen-nonce map and the rate-limit buckets
changed, contradicting the claim that all three stores are unchanged after
any failed submit. -/
theorem c3_counterexample :
    (submit envBad defaultCapabilities 1000 "iso" reqA st0).1 =
        SubmitResult.invalidSignature ∧
    (submit envBad defaultCapabilities 1000 "iso" reqA st0).2.seenNonces ≠
        st0.seenNonces ∧
    (submit envBad defaultCapabilities 1000 "iso" reqA st0).2.rateBuckets ≠
        st0.rateBuckets := by
  refine ⟨rfl, ?_, ?_⟩ <;> decide

/-- C3 (amended): no failing `POST /inbox` ever touches the task store or
the receipt store, and `missing_fields` / `rate_limited` failures leave
the whole state unchanged; but a request failing with `invalid_nonce` has
already consumed a rate-limit slot, and one failing with
`invalid_signature` or `capability_not_found` has additionally recorded
its nonce (as first seen at `now`) in the seen-nonce map. -/
theorem c3_failure_state_effects
    (env : Env) (caps : List String) (now : Int) (nowIso : String)
    (req : InboxRequest) (st : ServerState) :
    (submit env caps now nowIso req st).2.receipts = st.receipts ∧
    ((submit env caps now nowIso req st).1.errorKind.isSome = true →
        (submit env caps now nowIso req st).2.tasks = st.tasks) ∧
    ((submit env caps now nowIso req st).1 = SubmitResult.missingFields →
        (submit env caps now nowIso req st).2 = st) ∧
    ((submit env caps now nowIso req st).1 = SubmitResult.rateLimited →
        (submit env caps now nowIso req st).2 = st) ∧
    ((submit env caps now nowIso req st).1 = SubmitResult.invalidNonce →
        (submit env caps now nowIso req st).2.seenNonces = st.seenNonces) ∧
    (((submit env caps now nowIso req st).1 = SubmitResult.invalidSignature ∨
      (submit env caps now nowIso req st).1 = SubmitResult.capabilityNotFound) →
        alookup (req.nonce.getD "") (submit env caps now nowIso req st).2.seenNonces =
          some now) ∧
    (((submit env caps now nowIso req st).1 = SubmitResult.invalidNonce ∨
      (submit env caps now nowIso req st).1 = SubmitResult.invalidSignature ∨
      (submit env caps now nowIso req st).1 = SubmitResult.capabilityNotFound) →
        alookup (req.requester_id.getD "")
            (submit env caps now nowIso req st).2.rateBuckets =
          some ((((alookup (req.requester_id.getD "") st.rateBuckets).getD []).filter
            (fun ts => now - ts < RATE_WINDOW_MS)) ++ [now])) := by
  by_cases h1 : requiredPresent req
  case neg => simp [submit, h1, SubmitResult.errorKind]
  case pos =>
    by_cases h2 : (checkRateLimit now (req.requester_id.getD "") st.rateBuckets).1 = true
    case neg =>
      have h2' : (checkRateLimit now (req.requester_id.getD "") st.rateBuckets).1 = false := by
        revert h2
        cases (checkRateLimit now (req.requester_id.getD "") st.rateBuckets).1 <;> simp
      have hsnd := checkRateLimit_snd_of_fail now (req.requester_id.getD "") st.rateBuckets h2'
      simp [submit, h1, h2', hsnd, SubmitResult.errorKind]
    case pos =>
      have hbucket := checkRateLimit_snd_of_pass now (req.requester_id.getD "")
        st.rateBuckets h2
      rcases checkNonce_cases env now (req.nonce.getD "") (req.timestamp.getD "")
          st.seenNonces with hnc | hnc
      · simp [submit, h1, h2, hnc, SubmitResult.errorKind, hbucket]
      · by_cases h3 : verifySignature env (messageToVerify req) (req.signature.getD "")
            (req.requester_id.getD "") = true
        case neg =>
          have h3' : verifySignature env (messageToVerify req) (req.signature.getD "")
              (req.requester_id.getD "") = false := by
            revert h3
            cases verifySignature env (messageToVerify req) (req.signature.getD "")
                (req.requester_id.getD "") <;> simp
          simp [submit, h1, h2, hnc, h3', SubmitResult.errorKind, alookup_ainsert_self,
            hbucket]
        case pos =>
          by_cases h4 : req.task_type.getD "" ∈ caps
          · simp [submit, h1, h2, hnc, h3, h4, SubmitResult.errorKind]
          · simp [submit, h1, h2, hnc, h3, h4, SubmitResult.errorKind,
              alookup_ainsert_self, hbucket]

/-- Witness for C3's amended theorem at the concrete failing-signature
input. -/
theorem c3_witness :
    (submit envBad defaultCapabilities 1000 "iso" reqA st0).2.tasks = st0.tasks ∧
    alookup "n1" (submit envBad defaultCapabilities 1000 "iso" reqA st0).2.seenNonces =
      some 1000 ∧
    alookup "req-1"
        (submit envBad defaultCapabilities 1000 "iso" reqA st0).2.rateBuckets =
      some [1000] :=
  ⟨(c3_failure_state_effects envBad defaultCapabilities 1000 "iso" reqA st0).2.1
      (by decide),
   (c3_failure_state_effects envBad defaultCapabilities 1000 "iso" reqA st0).2.2.2.2.2.1
      (Or.inl (by decide)),
   (c3_failure_state_effects envBad defaultCapabilities 1000 "iso" reqA st0).2.2.2.2.2.2
      (Or.inr (Or.inl (by decide)))⟩

/-- C4: completing a stored task with a truthy result produces a receipt
whose `result_hash` is the SHA-256 hex digest of the canonical
serialization of the result stored on the task record, and whose
`agent_signature` verifies against the agent's public key over the
receipt's preceding fields; the subsequent status lookup returns exactly
that receipt and result. The crypto hypotheses say the stored keys
decode, base64 decoding inverts encoding on produced signatures, and the
Ed25519 scheme accepts its own signatures. -/
theorem c4_complete_receipt_valid
    (env : Env) (keys : AgentKeys) (nowIso : String) (id : String)
    (r : Json) (pp : Option Json) (st : ServerState) (task : Task)
    (sk pk : List Nat)
    (htask : alookup id st.tasks = some task)
    (hres : jsonTruthy r = true)
    (hsk : env.decodeBase64 keys.secretKey = some sk)
    (hpk : env.decodeBase64 keys.publicKey = some pk)
    (hrt : ∀ m : List Nat,
        env.decodeBase64 (env.encodeBase64 (env.naclSignDetached m sk)) =
          some (env.naclSignDetached m sk))
    (hcorrect : ∀ m : List Nat,
        env.naclVerifyDetached m (env.naclSignDetached m sk) pk = true) :
    ∃ rcpt : Receipt,
      (complete env keys nowIso id (some r) pp st).1 = CompleteResult.ok rcpt ∧
      getStatus (complete env keys nowIso id (some r) pp st).2 task.task_id =
        some
          { task_id := task.task_id
            status := "completed"
            task_type := task.task_type
            created := task.created
            updated := nowIso
            result := some r
            receipt := some rcpt } ∧
      rcpt.result_hash = env.sha256hex (env.utf8Encode r.stringify) ∧
      verifySignature env (receiptDataJson rcpt) rcpt.agent_signature
        keys.publicKey = true := by
  refine
    ⟨{ task_id := task.task_id
       requester_id := task.requester_id
       agent_id := keys.publicKey
       task_type := task.task_type
       completion_timestamp := nowIso
       result_hash := env.sha256hex (env.utf8Encode r.stringify)
       payment_proof := jsOr pp
       agent_signature :=
         env.encodeBase64 (env.naclSignDetached
           (env.utf8Encode (Json.stringify (receiptDataJson
             { task_id := task.task_id
               requester_id := task.requester_id
               agent_id := keys.publicKey
               task_type := task.task_type
               completion_timestamp := nowIso
               result_hash := env.sha256hex (env.utf8Encode r.stringify)
               payment_proof := jsOr pp
               agent_signature := "" }))) sk) }, ?_, ?_, ?_, ?_⟩
  · simp [complete, htask, hres, signMessage, hsk]
  · simp [complete, htask, hres, signMessage, hsk, getStatus, alookup_ainsert_self]
  · rfl
  · simp [verifySignature, receiptDataJson, hrt, hpk, hcorrect]

/-- Witness for C4 at a concrete environment whose sign/verify pair is
honest on the produced signature. -/
theorem c4_witness :
    ∃ rcpt : Receipt,
      (complete envSign keysA "iso2" "task-1" (some (Json.str "r2")) none stOne).1 =
          CompleteResult.ok rcpt ∧
      getStatus (complete envSign keysA "iso2" "task-1"
          (some (Json.str "r2")) none stOne).2
          (mkTask reqA "2026-02-16T00:00:01.000Z").task_id =
        some
          { task_id := (mkTask reqA "2026-02-16T00:00:01.000Z").task_id
            status := "completed"
            task_type := (mkTask reqA "2026-02-16T00:00:01.000Z").task_type
            created := (mkTask reqA "2026-02-16T00:00:01.000Z").created
            updated := "iso2"
            result := some (Json.str "r2")
            receipt := some rcpt } ∧
      rcpt.result_hash = envSign.sha256hex (envSign.utf8Encode (Json.str "r2").stringify) ∧
      verifySignature envSign (receiptDataJson rcpt) rcpt.agent_signature
        keysA.publicKey = true :=
  c4_complete_receipt_valid envSign keysA "iso2" "task-1" (Json.str "r2") none stOne
    (mkTask reqA "2026-02-16T00:00:01.000Z") [1] [2]
    rfl rfl rfl rfl (fun _ => rfl) (fun _ => rfl)

/-- C5 counterexample: a request reusing the previously accepted nonce
`n1` (first seen 100 ms ago, well within 2x the replay window) but with
its `description` field changed to be absent fails with `missing_fields`,
not `invalid_nonce` — so the claim's "regardless of any changes to the
other fields" does not hold as stated. -/
theorem c5_counterexample :
    alookup "n1" stSeen.seenNonces = some 900 ∧
    (1000 : Int) - 900 ≤ NONCE_EXPIRY_MS * 2 ∧
    reqNoDesc.nonce = some "n1" ∧
    (submit envA defaultCapabilities 1000 "iso" reqNoDesc stSeen).1 ≠
        SubmitResult.invalidNonce ∧
    (submit envA defaultCapabilities 1000 "iso" reqNoDesc stSeen).1.errorKind =
        some "missing_fields" := by
  refine ⟨rfl, by decide, rfl, by decide, rfl⟩

/-- C5 (amended): provided the request carries all required fields and the
requester is under the rate limit, a submit whose nonce is already in the
seen-nonce map fails with `invalid_nonce` (HTTP 400) regardless of every
other field's value; moreover, while the nonce's first sight is within 2x
the replay window the background prune keeps its entry, so the nonce stays
refused. -/
theorem c5_replayed_nonce_rejected
    (env : Env) (caps : List String) (now : Int) (nowIso : String)
    (req : InboxRequest) (st : ServerState) (ts0 : Int)
    (hreq : requiredPresent req = true)
    (hrate : (((alookup (req.requester_id.getD "") st.rateBuckets).getD []).filter
        (fun ts => now - ts < RATE_WINDOW_MS)).length < RATE_MAX_REQUESTS)
    (hseen : alookup (req.nonce.getD "") st.seenNonces = some ts0) :
    (submit env caps now nowIso req st).1 = SubmitResult.invalidNonce ∧
    (submit env caps now nowIso req st).1.httpStatus = 400 ∧
    (submit env caps now nowIso req st).1.errorKind = some "invalid_nonce" ∧
    (now - ts0 ≤ NONCE_EXPIRY_MS * 2 →
        alookup (req.nonce.getD "") (pruneNonces now st.seenNonces) = some ts0) := by
  have hrl : (checkRateLimit now (req.requester_id.getD "") st.rateBuckets).1 = true :=
    (checkRateLimit_fst_iff now (req.requester_id.getD "") st.rateBuckets).mpr hrate
  have hnc :
      checkNonce env now (req.nonce.getD "") (req.timestamp.getD "") st.seenNonces =
        (false, st.seenNonces) :=
    checkNonce_of_seen env now (req.nonce.getD "") (req.timestamp.getD "")
      st.seenNonces (by simp [hseen])
  refine ⟨?_, ?_, ?_, ?_⟩
  · simp [submit, hreq, hrl, hnc]
  · simp [submit, hreq, hrl, hnc, SubmitResult.httpStatus]
  · simp [submit, hreq, hrl, hnc, SubmitResult.errorKind]
  · intro hkeep
    simp only [pruneNonces]
    exact alookup_filter_of_keep (req.nonce.getD "") ts0 _ st.seenNonces hseen
      (by simp only [decide_eq_true_eq]; omega)

/-- Witness for C5's amended theorem: the well-formed request `reqA`
replaying nonce `n1` against the state that has already seen it. -/
theorem c5_witness :
    (submit envA defaultCapabilities 1000 "iso" reqA stSeen).1 =
        SubmitResult.invalidNonce ∧
    (submit envA defaultCapabilities 1000 "iso" reqA stSeen).1.httpStatus = 400 ∧
    (submit envA defaultCapabilities 1000 "iso" reqA stSeen).1.errorKind =
        some "invalid_nonce" ∧
    ((1000 : Int) - 900 ≤ NONCE_EXPIRY_MS * 2 →
        alookup (reqA.nonce.getD "") (pruneNonces 1000 stSeen.seenNonces) = some 900) :=
  c5_replayed_nonce_rejected envA defaultCapabilities 1000 "iso" reqA stSeen 900
    rfl (by decide) rfl

/-- C6: a submit whose parsed timestamp is more than 5 minutes from server
time — in the past or in the future — fails with `invalid_nonce` (HTTP
400), with no assumption on the nonce or any later check. -/
theorem c6_out_of_window_timestamp_rejected
    (env : Env) (caps : List String) (now : Int) (nowIso : String)
    (req : InboxRequest) (st : ServerState) (t : Int)
    (hreq : requiredPresent req = true)
    (hrate : (((alookup (req.requester_id.getD "") st.rateBuckets).getD []).filter
        (fun ts => now - ts < RATE_WINDOW_MS)).length < RATE_MAX_REQUESTS)
    (hts : env.parseDate (req.timestamp.getD "") = some t)
    (hfar : NONCE_EXPIRY_MS < mathAbs (now - t)) :
    (submit env caps now nowIso req st).1 = SubmitResult.invalidNonce ∧
    (submit env caps now nowIso req st).1.httpStatus = 400 ∧
    (submit env caps now nowIso req st).1.errorKind = some "invalid_nonce" := by
  have hrl : (checkRateLimit now (req.requester_id.getD "") st.rateBuckets).1 = true :=
    (checkRateLimit_fst_iff now (req.requester_id.getD "") st.rateBuckets).mpr hrate
  have hnc :
      checkNonce env now (req.nonce.getD "") (req.timestamp.getD "") st.seenNonces =
        (false, st.seenNonces) :=
    checkNonce_out_of_window env now (req.nonce.getD "") (req.timestamp.getD "")
      st.seenNonces t hts hfar
  refine ⟨?_, ?_, ?_⟩ <;>
    simp [submit, hreq, hrl, hnc, SubmitResult.httpStatus, SubmitResult.errorKind]

/-- Witness for C6: a fresh-nonce request whose timestamp parses to one
hour away from server time. -/
theorem c6_witness :
    (submit envA defaultCapabilities 1000 "iso" reqStale st0).1 =
        SubmitResult.invalidNonce ∧
    (submit envA defaultCapabilities 1000 "iso" reqStale st0).1.httpStatus = 400 ∧
    (submit envA defaultCapabilities 1000 "iso" reqStale st0).1.errorKind =
        some "invalid_nonce" :=
  c6_out_of_window_timestamp_rejected envA defaultCapabilities 1000 "iso" reqStale st0
    3601000 rfl (by decide) rfl (by decide)

/-- C7: (i) a submit passing the field, rate and nonce checks but whose
signature does not verify against `requester_id` over the canonical field
set fails with `invalid_signature` (HTTP 401); (ii) `verifySignature`
returns `false` (rather than throwing) whenever base64-decoding of the
signature or of the public key fails. -/
theorem c7_invalid_signature_rejected :
    (∀ (env : Env) (caps : List String) (now : Int) (nowIso : String)
        (req : InboxRequest) (st : ServerState),
      requiredPresent req = true →
      (checkRateLimit now (req.requester_id.getD "") st.rateBuckets).1 = true →
      (checkNonce env now (req.nonce.getD "") (req.timestamp.getD "")
          st.seenNonces).1 = true →
      verifySignature env (messageToVerify req) (req.signature.getD "")
          (req.requester_id.getD "") = false →
      (submit env caps now nowIso req st).1 = SubmitResult.invalidSignature ∧
      (submit env caps now nowIso req st).1.httpStatus = 401 ∧
      (submit env caps now nowIso req st).1.errorKind = some "invalid_signature") ∧
    (∀ (env : Env) (msg : Json) (sig pk : String),
      env.decodeBase64 sig = none ∨ env.decodeBase64 pk = none →
      verifySignature env msg sig pk = false) := by
  constructor
  · intro env caps now nowIso req st hreq hrl hn hsig
    rcases checkNonce_cases env now (req.nonce.getD "") (req.timestamp.getD "")
        st.seenNonces with hnc | hnc
    · rw [hnc] at hn; cases hn
    · refine ⟨?_, ?_, ?_⟩ <;>
        simp [submit, hreq, hrl, hnc, hsig, SubmitResult.httpStatus,
          SubmitResult.errorKind]
  · intro env msg sig pk h
    rcases h with h | h
    · cases hp : env.decodeBase64 pk <;> simp [verifySignature, h, hp]
    · cases hs : env.decodeBase64 sig <;> simp [verifySignature, h, hs]

/-- Witness for C7: the always-refusing crypto environment, and an
environment whose base64 decoder always fails. -/
theorem c7_witness :
    ((submit envBad defaultCapabilities 1000 "iso" reqA st0).1 =
        SubmitResult.invalidSignature ∧
     (submit envBad defaultCapabilities 1000 "iso" reqA st0).1.httpStatus = 401 ∧
     (submit envBad defaultCapabilities 1000 "iso" reqA st0).1.errorKind =
        some "invalid_signature") ∧
    verifySignature { envA with decodeBase64 := fun _ => none } Json.null "s" "p" =
      false :=
  ⟨c7_invalid_signature_rejected.1 envBad defaultCapabilities 1000 "iso" reqA st0
      rfl (by decide) (by decide) rfl,
   c7_invalid_signature_rejected.2 { envA with decodeBase64 := fun _ => none }
      Json.null "s" "p" (Or.inl rfl)⟩

/-- C8: (i) a submit from a requester with `RATE_MAX_REQUESTS` timestamps
already inside the rolling window fails with `rate_limited` (HTTP 429);
(ii) once fewer than `RATE_MAX_REQUESTS` timestamps remain inside the
window, the rate check passes again; (iii) `checkRateLimit` keeps every
stored per-identity timestamp list at length at most `RATE_MAX_REQUESTS`. -/
theorem c8_rate_limit_behaviour :
    (∀ (env : Env) (caps : List String) (now : Int) (nowIso : String)
        (req : InboxRequest) (st : ServerState),
      requiredPresent req = true →
      RATE_MAX_REQUESTS ≤
        (((alookup (req.requester_id.getD "") st.rateBuckets).getD []).filter
            (fun ts => now - ts < RATE_WINDOW_MS)).length →
      (submit env caps now nowIso req st).1 = SubmitResult.rateLimited ∧
      (submit env caps now nowIso req st).1.httpStatus = 429 ∧
      (submit env caps now nowIso req st).1.errorKind = some "rate_limited") ∧
    (∀ (now : Int) (rid : String) (b : List (String × List Int)),
      (((alookup rid b).getD []).filter
          (fun ts => now - ts < RATE_WINDOW_MS)).length < RATE_MAX_REQUESTS →
      (checkRateLimit now rid b).1 = true) ∧
    (∀ (now : Int) (rid : String) (b : List (String × List Int)),
      (∀ l ∈ b.map Prod.snd, l.length ≤ RATE_MAX_REQUESTS) →
      ∀ l ∈ (checkRateLimit now rid b).2.map Prod.snd,
        l.length ≤ RATE_MAX_REQUESTS) := by
  refine ⟨?_, ?_, ?_⟩
  · intro env caps now nowIso req st hreq hfull
    have hf : (checkRateLimit now (req.requester_id.getD "") st.rateBuckets).1 = false := by
      cases hb : (checkRateLimit now (req.requester_id.getD "") st.rateBuckets).1
      · rfl
      · exact absurd ((checkRateLimit_fst_iff now (req.requester_id.getD "")
          st.rateBuckets).mp hb) (by omega)
    refine ⟨?_, ?_, ?_⟩ <;>
      simp [submit, hreq, hf, SubmitResult.httpStatus, SubmitResult.errorKind]
  · intro now rid b h
    exact (checkRateLimit_fst_iff now rid b).mpr h
  · intro now rid b hb
    by_cases hc : RATE_MAX_REQUESTS ≤
        (((alookup rid b).getD []).filter (fun ts => now - ts < RATE_WINDOW_MS)).length
    · by_cases hsome : (alookup rid b).isSome
      · have h2 : (checkRateLimit now rid b).2 = b := by
          simp [checkRateLimit, hc, hsome]
        rw [h2]; exact hb
      · have h2 : (checkRateLimit now rid b).2 = ainsert rid [] b := by
          simp [checkRateLimit, hc, hsome]
        rw [h2]
        intro l hl
        rcases mem_snd_ainsert rid [] l b hl with h | h
        · simp [h]
        · exact hb l h
    · have hlt : (((alookup rid b).getD []).filter
          (fun ts => now - ts < RATE_WINDOW_MS)).length < RATE_MAX_REQUESTS :=
        Nat.lt_of_not_le hc
      by_cases hsome : (alookup rid b).isSome
      · have h2 : (checkRateLimit now rid b).2 =
            ainsert rid ((((alookup rid b).getD []).filter
              (fun ts => now - ts < RATE_WINDOW_MS)) ++ [now]) b := by
          simp [checkRateLimit, hc, hsome]
        rw [h2]
        intro l hl
        rcases mem_snd_ainsert _ _ l b hl with h | h
        · rw [h]; simp only [List.length_append, List.length_cons, List.length_nil]
          omega
        · exact hb l h
      · have h2 : (checkRateLimit now rid b).2 =
            ainsert rid ((((alookup rid b).getD []).filter
              (fun ts => now - ts < RATE_WINDOW_MS)) ++ [now]) (ainsert rid [] b) := by
          simp [checkRateLimit, hc, hsome]
        rw [h2]
        intro l hl
        rcases mem_snd_ainsert _ _ l (ainsert rid [] b) hl with h | h
        · rw [h]; simp only [List.length_append, List.length_cons, List.length_nil]
          omega
        · rcases mem_snd_ainsert rid [] l b h with h' | h'
          · simp [h']
          · exact hb l h'

/-- Witness for C8 at concrete buckets: a full bucket refuses the 11th
request, a short bucket passes, and the bound is preserved. -/
theorem c8_witness :
    ((submit envA defaultCapabilities 1000 "iso" reqA stRateFull).1 =
        SubmitResult.rateLimited ∧
     (submit envA defaultCapabilities 1000 "iso" reqA stRateFull).1.httpStatus = 429 ∧
     (submit envA defaultCapabilities 1000 "iso" reqA stRateFull).1.errorKind =
        some "rate_limited") ∧
    (checkRateLimit 1000 "req-1" [("req-1", [1, 2, 3])]).1 = true ∧
    (∀ l ∈ (checkRateLimit 1000 "req-1" stRateFull.rateBuckets).2.map Prod.snd,
        l.length ≤ RATE_MAX_REQUESTS) :=
  ⟨c8_rate_limit_behaviour.1 envA defaultCapabilities 1000 "iso" reqA stRateFull
      rfl (by decide),
   c8_rate_limit_behaviour.2.1 1000 "req-1" [("req-1", [1, 2, 3])] (by decide),
   c8_rate_limit_behaviour.2.2 1000 "req-1" stRateFull.rateBuckets (by decide)⟩

/-- C9: a request whose timestamp string does not parse as a date (so the
JS window test compares against `NaN` and does not reject) passes
`checkNonce` when its nonce is fresh — the nonce is recorded — and, with
the other checks passing, the whole submit is accepted. -/
theorem c9_nan_timestamp_accepted
    (env : Env) (caps : List String) (now : Int) (nowIso : String)
    (req : InboxRequest) (st : ServerState)
    (hreq : requiredPresent req = true)
    (hrate : (((alookup (req.requester_id.getD "") st.rateBuckets).getD []).filter
        (fun ts => now - ts < RATE_WINDOW_MS)).length < RATE_MAX_REQUESTS)
    (hts : env.parseDate (req.timestamp.getD "") = none)
    (hfresh : alookup (req.nonce.getD "") st.seenNonces = none)
    (hsig : verifySignature env (messageToVerify req) (req.signature.getD "")
        (req.requester_id.getD "") = true)
    (hcap : req.task_type.getD "" ∈ caps) :
    checkNonce env now (req.nonce.getD "") (req.timestamp.getD "") st.seenNonces =
      (true, ainsert (req.nonce.getD "") now st.seenNonces) ∧
    (submit env caps now nowIso req st).1 =
      SubmitResult.accepted (req.task_id.getD "") ∧
    (submit env caps now nowIso req st).1.httpStatus = 201 := by
  have hrl : (checkRateLimit now (req.requester_id.getD "") st.rateBuckets).1 = true :=
    (checkRateLimit_fst_iff now (req.requester_id.getD "") st.rateBuckets).mpr hrate
  have hnc :
      checkNonce env now (req.nonce.getD "") (req.timestamp.getD "") st.seenNonces =
        (true, ainsert (req.nonce.getD "") now st.seenNonces) :=
    checkNonce_nan env now (req.nonce.getD "") (req.timestamp.getD "")
      st.seenNonces hts hfresh
  refine ⟨hnc, ?_, ?_⟩ <;>
    simp [submit, hreq, hrl, hnc, hsig, hcap, SubmitResult.httpStatus]

/-- Witness for C9: the request whose timestamp is the unparsable string
`not-a-date`. -/
theorem c9_witness :
    checkNonce envA 1000 (reqNan.nonce.getD "") (reqNan.timestamp.getD "")
        st0.seenNonces =
      (true, ainsert (reqNan.nonce.getD "") 1000 st0.seenNonces) ∧
    (submit envA defaultCapabilities 1000 "iso" reqNan st0).1 =
      SubmitResult.accepted (reqNan.task_id.getD "") ∧
    (submit envA defaultCapabilities 1000 "iso" reqNan st0).1.httpStatus = 201 :=
  c9_nan_timestamp_accepted envA defaultCapabilities 1000 "iso" reqNan st0
    rfl (by decide) rfl rfl rfl (by decide)

/-- C10 counterexample: with `?limit=` (present but equal to the empty
string, on which `parseInt` yields `NaN`) both list routes skip the
truthiness-guarded slice and return every matching record — `total` is `1`
on a store holding one task and one receipt, not `0`. -/
theorem c10_counterexample :
    jsParseInt "" = none ∧
    (getTasks envA none (some "") stOne).total = 1 ∧
    (getReceipts envA keysA none none (some "") stOne).total = 1 :=
  ⟨rfl, rfl, rfl⟩

/-- C10 (amended): when the `limit` query value is present, non-empty
(truthy) and does not parse as an integer (`parseInt` yields `NaN`),
`GET /tasks` and `GET /receipts` return an empty list with `total = 0`,
whatever records the stores hold. -/
theorem c10_unparsable_limit_empty
    (env : Env) (keys : AgentKeys) (status agent_id task_type : Option String)
    (st : ServerState) (s : String)
    (hne : s ≠ "") (hnan : jsParseInt s = none) :
    (getTasks env status (some s) st).total = 0 ∧
    (getTasks env status (some s) st).tasks = [] ∧
    (getReceipts env keys agent_id task_type (some s) st).total = 0 ∧
    (getReceipts env keys agent_id task_type (some s) st).receipts = [] := by
  refine ⟨?_, ?_, ?_, ?_⟩ <;>
    simp [getTasks, getReceipts, applyLimit, hne, hnan, jsSliceTo]

/-- Witness for C10's amended theorem: `?limit=abc` on the one-task,
one-receipt store. -/
theorem c10_witness :
    (getTasks envA none (some "abc") stOne).total = 0 ∧
    (getTasks envA none (some "abc") stOne).tasks = [] ∧
    (getReceipts envA keysA none none (some "abc") stOne).total = 0 ∧
    (getReceipts envA keysA none none (some "abc") stOne).receipts = [] :=
  c10_unparsable_limit_empty envA keysA none none none stOne "abc"
    (by decide) rfl

end AIP
